import Mathlib

/-!
Verification development for the MultiLingualTranslator repository.

The embedded code:
* `translateText` (server routes file, `translateText`): the four-provider
  translation fallback chain (Google, Microsoft, Lingva, MyMemory).
  Outbound HTTP calls are modelled by an `Env` record holding, for each
  provider, the value the code's parsing of that provider's response would
  produce (`none` when the call errors, the status is non-success, or the
  expected field is structurally absent).  The function returns the result
  (`Except.ok` with the translated string, or `Except.error` with the thrown
  message) together with the ordered list of provider attempts actually
  issued, each attempt carrying the request data relevant to the claims.
* `detectLanguageHeuristic` (same file, `detectLanguage`): the character-range
  heuristic branch, the one taken when no Google API key is configured.
* `MemStorage` with `createTranslation` / `getRecentTranslations`
  (`server/storage.ts`).  JavaScript `Array.prototype.sort` is stable
  (ES2019), so the comparator sort is embedded as a stable insertion sort on
  the insertion-ordered list of records; `Map.values()` iterates in insertion
  order and every inserted id is fresh, so the backing map is a list that
  only ever appends.
* `postTranslate` (`registerRoutes`, `POST /api/translate`): field
  validation, resolver call, persistence, and response shaping.  HTTP status
  codes are recovered from the response constructors by
  `HandlerResponse.status`.

JavaScript string truthiness (`""` is falsy) is `jsTruthy`; `toLowerCase` is
embedded character-wise (`lowerStr`), which agrees with JavaScript on the
ASCII inputs all concrete instances below use.
-/

namespace MLT

/-- JavaScript truthiness of a string: `""` is falsy, anything else truthy. -/
def jsTruthy (s : String) : Bool := !(s == "")

/-- Character-wise lowercasing, the model of JavaScript `toLowerCase()`. -/
def lowerStr (s : String) : String := String.mk (s.data.map Char.toLower)

/-- One outbound provider attempt, as issued by `translateText`, carrying the
request data the claims talk about: the Microsoft subscription key actually
sent, and the MyMemory `langpair` query parameter. -/
inductive Attempt where
  | google : Attempt
  | microsoft (subscriptionKey : String) : Attempt
  | lingva : Attempt
  | mymemory (langPair : String) : Attempt
deriving DecidableEq, Repr

/-- The outside world as `translateText` observes it: the two environment
variables, and for each provider the string its response parsing yields
(`none` = network error, non-success status, or expected field absent). -/
structure Env where
  googleApiKey : Option String
  azureTranslatorKey : Option String
  googleResult : Option String
  microsoftResult : Option String
  lingvaResult : Option String
  mymemoryResult : Option String
deriving DecidableEq, Repr

/-- `API_KEY && API_KEY !== "demo_key"`: the Google branch is entered only
when the key is set, non-empty and not the placeholder. -/
def googleKeyActive (k : Option String) : Bool :=
  match k with
  | some s => jsTruthy s && !(s == "demo_key")
  | none => false

/-- `process.env.AZURE_TRANSLATOR_KEY || 'none'`: the subscription key header
sent to Microsoft, defaulting to the literal string `none`. -/
def msKeyHeader (k : Option String) : String :=
  match k with
  | some s => if jsTruthy s then s else "none"
  | none => "none"

/-- The `langpair` parameter sent to MyMemory:
`(from === 'auto' ? 'en' : from) + '|' + to`. -/
def mymemoryLangPair (fro toLang : String) : String :=
  (if fro == "auto" then "en" else fro) ++ "|" ++ toLang

/-- The message of the error thrown when every provider has failed. -/
def allFailedMsg : String := "All translation services failed"

/-- The MyMemory attempt: accepted when the response parses, the translated
text is truthy, and it is not case-insensitively identical to the input;
otherwise the chain is exhausted and the error is thrown. -/
def mymemoryStep (env : Env) (text fro toLang : String) :
    Except String String × List Attempt :=
  let lp := mymemoryLangPair fro toLang
  match env.mymemoryResult with
  | some s =>
    if jsTruthy s then
      if !(lowerStr s == lowerStr text) then (Except.ok s, [Attempt.mymemory lp])
      else (Except.error allFailedMsg, [Attempt.mymemory lp])
    else (Except.error allFailedMsg, [Attempt.mymemory lp])
  | none => (Except.error allFailedMsg, [Attempt.mymemory lp])

/-- The Lingva attempt: accepted when the response parses and the
`translation` field is truthy; otherwise fall through to MyMemory. -/
def lingvaStep (env : Env) (text fro toLang : String) :
    Except String String × List Attempt :=
  match env.lingvaResult with
  | some s =>
    if jsTruthy s then (Except.ok s, [Attempt.lingva])
    else
      let r := mymemoryStep env text fro toLang
      (r.1, Attempt.lingva :: r.2)
  | none =>
    let r := mymemoryStep env text fro toLang
    (r.1, Attempt.lingva :: r.2)

/-- The Microsoft attempt: always issued (the subscription key defaults to
the literal `none`); its returned `text` field is not checked for emptiness.
On failure fall through to Lingva. -/
def microsoftStep (env : Env) (text fro toLang : String) :
    Except String String × List Attempt :=
  let key := msKeyHeader env.azureTranslatorKey
  match env.microsoftResult with
  | some s => (Except.ok s, [Attempt.microsoft key])
  | none =>
    let r := lingvaStep env text fro toLang
    (r.1, Attempt.microsoft key :: r.2)

/-- The provider fallback resolver `translateText(text, from, to)`: Google
(only when its key is active), then Microsoft, then Lingva, then MyMemory;
the first accepted response is returned, and exhaustion throws
`allFailedMsg`. -/
def translateText (env : Env) (text fro toLang : String) :
    Except String String × List Attempt :=
  if googleKeyActive env.googleApiKey then
    match env.googleResult with
    | some s => (Except.ok s, [Attempt.google])
    | none =>
      let r := microsoftStep env text fro toLang
      (r.1, Attempt.google :: r.2)
  else microsoftStep env text fro toLang

/-- The Google attempt that precedes Microsoft in the trace: present exactly
when the Google key is active. -/
def googleTrace (env : Env) : List Attempt :=
  if googleKeyActive env.googleApiKey then [Attempt.google] else []

/-- Test of `/[一-鿿]/` (CJK Unified Ideographs). -/
def hasChinese (text : String) : Bool :=
  text.data.any fun c => 0x4e00 ≤ c.toNat && c.toNat ≤ 0x9fff

/-- Test of `/[぀-ゟ゠-ヿ]/` (Hiragana or Katakana). -/
def hasJapanese (text : String) : Bool :=
  text.data.any fun c =>
    (0x3040 ≤ c.toNat && c.toNat ≤ 0x309f) || (0x30a0 ≤ c.toNat && c.toNat ≤ 0x30ff)

/-- Test of `/[가-힯]/` (Hangul syllables). -/
def hasKorean (text : String) : Bool :=
  text.data.any fun c => 0xac00 ≤ c.toNat && c.toNat ≤ 0xd7af

/-- Test of `/[Ѐ-ӿ]/` (Cyrillic). -/
def hasCyrillic (text : String) : Bool :=
  text.data.any fun c => 0x400 ≤ c.toNat && c.toNat ≤ 0x4ff

/-- Test of `/[؀-ۿ]/` (Arabic). -/
def hasArabic (text : String) : Bool :=
  text.data.any fun c => 0x600 ≤ c.toNat && c.toNat ≤ 0x6ff

/-- Test of `/[a-zA-Z]/` (Basic Latin letters). -/
def hasLatin (text : String) : Bool :=
  text.data.any fun c =>
    (0x41 ≤ c.toNat && c.toNat ≤ 0x5a) || (0x61 ≤ c.toNat && c.toNat ≤ 0x7a)

/-- The character-range heuristic branch of `detectLanguage`: fixed priority
order Chinese, Japanese, Korean, Cyrillic, Arabic, Latin, default `en`. -/
def detectLanguageHeuristic (text : String) : String :=
  if hasChinese text then "zh"
  else if hasJapanese text then "ja"
  else if hasKorean text then "ko"
  else if hasCyrillic text then "ru"
  else if hasArabic text then "ar"
  else if hasLatin text then "en"
  else "en"

/-- The insert shape accepted by `createTranslation` (schema
`insertTranslationSchema`). -/
structure InsertTranslation where
  sourceText : String
  translatedText : String
  sourceLanguage : String
  targetLanguage : String
deriving DecidableEq, Repr

/-- A stored translation record (schema `translations`); `createdAt` is the
millisecond timestamp `Date.getTime()` as a natural number. -/
structure Translation where
  id : Nat
  sourceText : String
  translatedText : String
  sourceLanguage : String
  targetLanguage : String
  createdAt : Nat
deriving DecidableEq, Repr

/-- `MemStorage`: the backing `Map` as its insertion-ordered value list
(every inserted id is fresh, so `Map.set` appends), plus the id counter. -/
structure MemStorage where
  translations : List Translation
  currentTranslationId : Nat
deriving DecidableEq, Repr

/-- The freshly constructed store: empty map, counter 1. -/
def MemStorage.empty : MemStorage := { translations := [], currentTranslationId := 1 }

/-- `createTranslation`: assign the next id, stamp the creation time, append
the record, return it together with the updated store. -/
def createTranslation (s : MemStorage) (ins : InsertTranslation) (now : Nat) :
    Translation × MemStorage :=
  let t : Translation :=
    { id := s.currentTranslationId
      sourceText := ins.sourceText
      translatedText := ins.translatedText
      sourceLanguage := ins.sourceLanguage
      targetLanguage := ins.targetLanguage
      createdAt := now }
  (t, { translations := s.translations ++ [t]
        currentTranslationId := s.currentTranslationId + 1 })

/-- A sequence of `createTranslation` calls, in order. -/
def createMany (s : MemStorage) (items : List (InsertTranslation × Nat)) : MemStorage :=
  items.foldl (fun st p => (createTranslation st p.1 p.2).2) s

/-- Stable insertion of one record into a list already sorted by `createdAt`
descending: the new record goes after every record whose `createdAt` is at
least its own (the comparator `b.createdAt - a.createdAt` is non-positive
there), before the first strictly older one. -/
def insertByCreatedAtDesc (x : Translation) : List Translation → List Translation
  | [] => [x]
  | y :: ys =>
    if x.createdAt ≤ y.createdAt then y :: insertByCreatedAtDesc x ys
    else x :: y :: ys

/-- The stable sort `.sort((a, b) => b.createdAt.getTime() - a.createdAt.getTime())`
(JavaScript `sort` is stable), as left-to-right stable insertion. -/
def sortByCreatedAtDesc (l : List Translation) : List Translation :=
  l.foldl (fun acc x => insertByCreatedAtDesc x acc) []

/-- `getRecentTranslations(limit)` (the route passes `10`): sort all stored
records by `createdAt` descending with the stable comparator sort, take the
first `limit`. -/
def getRecentTranslations (s : MemStorage) (limit : Nat) : List Translation :=
  (sortByCreatedAtDesc s.translations).take limit

/-- The order `getRecentTranslations` actually establishes: `createdAt`
strictly descending, ties in ascending id (= insertion) order. -/
def tieR (a b : Translation) : Prop :=
  b.createdAt < a.createdAt ∨ (a.createdAt = b.createdAt ∧ a.id < b.id)

instance : DecidableRel tieR := fun a b => by unfold tieR; infer_instance

/-- The body of `POST /api/translate`. -/
structure TranslateRequest where
  text : Option String
  fro : Option String
  toLang : Option String
deriving DecidableEq, Repr

/-- The response the handler sends: the constructor fixes the HTTP status
(`badRequest` 400, `serverError` 500, `ok` 200), fields carry the JSON body. -/
inductive HandlerResponse where
  | badRequest (error : String) : HandlerResponse
  | serverError (error : String) : HandlerResponse
  | ok (translatedText sourceLanguage targetLanguage : String) : HandlerResponse
deriving DecidableEq, Repr

/-- HTTP status code of a handler response. -/
def HandlerResponse.status : HandlerResponse → Nat
  | HandlerResponse.badRequest _ => 400
  | HandlerResponse.serverError _ => 500
  | HandlerResponse.ok _ _ _ => 200

/-- `from || 'auto'`: the resolved source language. -/
def orAuto : Option String → String
  | some s => if jsTruthy s then s else "auto"
  | none => "auto"

/-- The `POST /api/translate` handler: reject when `!text || !to`, otherwise
resolve, persist on success, map a thrown resolver error to the generic 500.
Returned alongside the response: the updated store and the provider attempts
issued. -/
def postTranslate (env : Env) (store : MemStorage) (now : Nat) (req : TranslateRequest) :
    HandlerResponse × MemStorage × List Attempt :=
  match req.text, req.toLang with
  | some text, some toLang =>
    if text == "" || toLang == "" then
      (HandlerResponse.badRequest "Missing required fields", store, [])
    else
      let fro := orAuto req.fro
      let r := translateText env text fro toLang
      match r.1 with
      | Except.ok translated =>
        let c := createTranslation store
          { sourceText := text
            translatedText := translated
            sourceLanguage := fro
            targetLanguage := toLang } now
        (HandlerResponse.ok translated fro toLang, c.2, r.2)
      | Except.error _ => (HandlerResponse.serverError "Translation failed", store, r.2)
  | _, _ => (HandlerResponse.badRequest "Missing required fields", store, [])

/-! Concrete environments and stores used by the closed statements below. -/

/-- Google key configured; Google's response carries an empty translation. -/
def envGoogleEmpty : Env :=
  { googleApiKey := some "key", azureTranslatorKey := none, googleResult := some ""
    microsoftResult := none, lingvaResult := none, mymemoryResult := none }

/-- No credential configured at all; Microsoft and Lingva would both answer. -/
def envNoAzure : Env :=
  { googleApiKey := none, azureTranslatorKey := none, googleResult := none
    microsoftResult := some "Bonjour", lingvaResult := some "Salut", mymemoryResult := none }

/-- Every provider fails. -/
def envAllFail : Env :=
  { googleApiKey := none, azureTranslatorKey := none, googleResult := none
    microsoftResult := none, lingvaResult := none, mymemoryResult := none }

/-- Only Lingva answers, with `Hola`. -/
def envLingvaHola : Env :=
  { googleApiKey := none, azureTranslatorKey := none, googleResult := none
    microsoftResult := none, lingvaResult := some "Hola", mymemoryResult := none }

/-- Only MyMemory answers, echoing the input up to case. -/
def envMymemoryEcho : Env :=
  { googleApiKey := none, azureTranslatorKey := none, googleResult := none
    microsoftResult := none, lingvaResult := none, mymemoryResult := some "hello" }

/-- Two records created in the same millisecond. -/
def twoTiedStore : MemStorage :=
  createMany MemStorage.empty
    [({ sourceText := "one", translatedText := "uno"
        sourceLanguage := "en", targetLanguage := "es" }, 5),
     ({ sourceText := "two", translatedText := "dos"
        sourceLanguage := "en", targetLanguage := "es" }, 5)]

/-! Helper lemmas about the fallback chain. -/

theorem translateText_google_fail (env : Env) (text fro toLang : String)
    (hg : googleKeyActive env.googleApiKey = false ∨ env.googleResult = none) :
    translateText env text fro toLang =
      ((microsoftStep env text fro toLang).1,
       googleTrace env ++ (microsoftStep env text fro toLang).2) := by
  rcases hg with hg | hg
  · simp [translateText, googleTrace, hg]
  · unfold translateText googleTrace
    cases hka : googleKeyActive env.googleApiKey <;> simp [hg]

theorem microsoftStep_fail (env : Env) (text fro toLang : String)
    (hm : env.microsoftResult = none) :
    microsoftStep env text fro toLang =
      ((lingvaStep env text fro toLang).1,
       Attempt.microsoft (msKeyHeader env.azureTranslatorKey) ::
         (lingvaStep env text fro toLang).2) := by
  simp [microsoftStep, hm]

theorem lingvaStep_fail (env : Env) (text fro toLang : String)
    (hl : env.lingvaResult = none ∨ env.lingvaResult = some "") :
    lingvaStep env text fro toLang =
      ((mymemoryStep env text fro toLang).1,
       Attempt.lingva :: (mymemoryStep env text fro toLang).2) := by
  rcases hl with hl | hl <;> simp [lingvaStep, hl, jsTruthy]

theorem mymemoryStep_fail (env : Env) (text fro toLang : String)
    (hmm : ∀ s, env.mymemoryResult = some s → s = "" ∨ lowerStr s = lowerStr text) :
    mymemoryStep env text fro toLang =
      (Except.error allFailedMsg, [Attempt.mymemory (mymemoryLangPair fro toLang)]) := by
  unfold mymemoryStep
  cases h : env.mymemoryResult with
  | none => rfl
  | some s =>
    rcases hmm s h with rfl | hs
    · simp [jsTruthy]
    · simp [hs, jsTruthy]

theorem mymemoryStep_ok (env : Env) (text fro toLang s : String)
    (h : env.mymemoryResult = some s) (hs : s ≠ "")
    (hne : lowerStr s ≠ lowerStr text) :
    mymemoryStep env text fro toLang =
      (Except.ok s, [Attempt.mymemory (mymemoryLangPair fro toLang)]) := by
  simp [mymemoryStep, h, jsTruthy, hs, hne]

theorem mymemoryStep_trace (env : Env) (text fro toLang : String) :
    (mymemoryStep env text fro toLang).2 =
      [Attempt.mymemory (mymemoryLangPair fro toLang)] := by
  unfold mymemoryStep
  cases h : env.mymemoryResult with
  | none => rfl
  | some s =>
    by_cases hs : jsTruthy s
    · simp [hs]
      split <;> rfl
    · simp [hs]

theorem mymemory_mem_lingva (env : Env) (text fro toLang lp : String)
    (h : Attempt.mymemory lp ∈ (lingvaStep env text fro toLang).2) :
    lp = mymemoryLangPair fro toLang := by
  unfold lingvaStep at h
  have htr := mymemoryStep_trace env text fro toLang
  cases hl : env.lingvaResult with
  | none =>
    simp [hl, htr] at h
    exact h
  | some s =>
    by_cases hs : jsTruthy s
    · simp [hl, hs] at h
    · simp [hl, hs, htr] at h
      exact h

theorem mymemory_mem_microsoft (env : Env) (text fro toLang lp : String)
    (h : Attempt.mymemory lp ∈ (microsoftStep env text fro toLang).2) :
    lp = mymemoryLangPair fro toLang := by
  unfold microsoftStep at h
  cases hm : env.microsoftResult with
  | none =>
    simp [hm] at h
    exact mymemory_mem_lingva env text fro toLang lp h
  | some s => simp [hm] at h

theorem mymemory_mem_translate (env : Env) (text fro toLang lp : String)
    (h : Attempt.mymemory lp ∈ (translateText env text fro toLang).2) :
    lp = mymemoryLangPair fro toLang := by
  unfold translateText at h
  by_cases hk : googleKeyActive env.googleApiKey
  · simp [hk] at h
    cases hg : env.googleResult with
    | none =>
      simp [hg] at h
      exact mymemory_mem_microsoft env text fro toLang lp h
    | some s => simp [hg] at h
  · simp [hk] at h
    exact mymemory_mem_microsoft env text fro toLang lp h

theorem microsoftStep_trace_head (env : Env) (text fro toLang : String) :
    ∃ rest, (microsoftStep env text fro toLang).2 =
      Attempt.microsoft (msKeyHeader env.azureTranslatorKey) :: rest := by
  cases hm : env.microsoftResult with
  | none => exact ⟨_, by rw [microsoftStep_fail env text fro toLang hm]⟩
  | some s => exact ⟨[], by simp [microsoftStep, hm]⟩

/-- C1 (amended): for every input, the resolver returns exactly the output of
the first provider whose attempt is accepted, and the trace stops at that
provider (no later provider is invoked); the output is not checked for
emptiness on the keyed providers. -/
theorem translateText_first_success (env : Env) (text fro toLang : String) :
    (∀ s, googleKeyActive env.googleApiKey = true → env.googleResult = some s →
      translateText env text fro toLang = (Except.ok s, [Attempt.google])) ∧
    (∀ s, (googleKeyActive env.googleApiKey = false ∨ env.googleResult = none) →
      env.microsoftResult = some s →
      translateText env text fro toLang =
        (Except.ok s,
         googleTrace env ++ [Attempt.microsoft (msKeyHeader env.azureTranslatorKey)])) ∧
    (∀ s, (googleKeyActive env.googleApiKey = false ∨ env.googleResult = none) →
      env.microsoftResult = none → env.lingvaResult = some s → s ≠ "" →
      translateText env text fro toLang =
        (Except.ok s,
         googleTrace env ++
           [Attempt.microsoft (msKeyHeader env.azureTranslatorKey), Attempt.lingva])) ∧
    (∀ s, (googleKeyActive env.googleApiKey = false ∨ env.googleResult = none) →
      env.microsoftResult = none →
      (env.lingvaResult = none ∨ env.lingvaResult = some "") →
      env.mymemoryResult = some s → s ≠ "" → lowerStr s ≠ lowerStr text →
      translateText env text fro toLang =
        (Except.ok s,
         googleTrace env ++
           [Attempt.microsoft (msKeyHeader env.azureTranslatorKey), Attempt.lingva,
            Attempt.mymemory (mymemoryLangPair fro toLang)])) := by
  refine ⟨?_, ?_, ?_, ?_⟩
  · intro s hk hg
    simp [translateText, hk, hg]
  · intro s hg hm
    rw [translateText_google_fail env text fro toLang hg]
    simp [microsoftStep, hm]
  · intro s hg hm hl hs
    rw [translateText_google_fail env text fro toLang hg,
        microsoftStep_fail env text fro toLang hm]
    simp [lingvaStep, hl, jsTruthy, hs]
  · intro s hg hm hl hmm hs hne
    rw [translateText_google_fail env text fro toLang hg,
        microsoftStep_fail env text fro toLang hm,
        lingvaStep_fail env text fro toLang hl,
        mymemoryStep_ok env text fro toLang s hmm hs hne]

/-- C1 witness: with no keys configured and Microsoft answering `Bonjour`,
the resolver returns `Bonjour` and stops at Microsoft. -/
theorem translateText_first_success_witness :
    (googleKeyActive envNoAzure.googleApiKey = false ∨ envNoAzure.googleResult = none) ∧
    envNoAzure.microsoftResult = some "Bonjour" ∧
    translateText envNoAzure "Hello" "auto" "fr" =
      (Except.ok "Bonjour",
       googleTrace envNoAzure ++
         [Attempt.microsoft (msKeyHeader envNoAzure.azureTranslatorKey)]) :=
  ⟨Or.inl rfl, rfl,
   (translateText_first_success envNoAzure "Hello" "auto" "fr").2.1 "Bonjour"
     (Or.inl rfl) rfl⟩

/-- C1 counterexample: Google's attempt is accepted (key configured, response
parsed) but its translation field is the empty string; the resolver then
returns the empty string, refuting the claim that the returned string is
always non-empty when a provider succeeds. -/
theorem translateText_empty_output_cex :
    googleKeyActive envGoogleEmpty.googleApiKey = true ∧
    envGoogleEmpty.googleResult = some "" ∧
    translateText envGoogleEmpty "Hello" "en" "es" = (Except.ok "", [Attempt.google]) :=
  ⟨rfl, rfl, rfl⟩

/-- C2: when every provider attempt fails, the resolver throws the terminal
`allFailedMsg` error, the handler answers with the generic 500 response, and
the store is returned unchanged. -/
theorem translateText_all_fail_500
    (env : Env) (store : MemStorage) (now : Nat) (text toLang : String) (fro? : Option String)
    (ht : text ≠ "") (hto : toLang ≠ "")
    (hg : googleKeyActive env.googleApiKey = false ∨ env.googleResult = none)
    (hm : env.microsoftResult = none)
    (hl : env.lingvaResult = none ∨ env.lingvaResult = some "")
    (hmm : ∀ s, env.mymemoryResult = some s → s = "" ∨ lowerStr s = lowerStr text) :
    (translateText env text (orAuto fro?) toLang).1 = Except.error allFailedMsg ∧
    postTranslate env store now { text := some text, fro := fro?, toLang := some toLang } =
      (HandlerResponse.serverError "Translation failed", store,
       (translateText env text (orAuto fro?) toLang).2) ∧
    HandlerResponse.status (HandlerResponse.serverError "Translation failed") = 500 := by
  have h1 : (translateText env text (orAuto fro?) toLang).1 = Except.error allFailedMsg := by
    rw [translateText_google_fail env text (orAuto fro?) toLang hg,
        microsoftStep_fail env text (orAuto fro?) toLang hm,
        lingvaStep_fail env text (orAuto fro?) toLang hl,
        mymemoryStep_fail env text (orAuto fro?) toLang hmm]
  refine ⟨h1, ?_, rfl⟩
  simp only [postTranslate]
  rw [if_neg (by simp [ht, hto])]
  rw [h1]

/-- C2 witness: all four providers failing on `Hello` → Spanish gives the
thrown error and the 500 response with the store untouched. -/
theorem translateText_all_fail_500_witness :
    ("Hello" : String) ≠ "" ∧ ("es" : String) ≠ "" ∧
    envAllFail.microsoftResult = none ∧
    (translateText envAllFail "Hello" (orAuto none) "es").1 = Except.error allFailedMsg ∧
    postTranslate envAllFail MemStorage.empty 7
        { text := some "Hello", fro := none, toLang := some "es" } =
      (HandlerResponse.serverError "Translation failed", MemStorage.empty,
       (translateText envAllFail "Hello" (orAuto none) "es").2) := by
  have h := translateText_all_fail_500 envAllFail MemStorage.empty 7 "Hello" "es" none
    (by decide) (by decide) (Or.inl rfl) rfl (Or.inl rfl)
    (fun s hs => by simp [envAllFail] at hs)
  exact ⟨by decide, by decide, rfl, h.1, h.2.1⟩

/-- C3: the reached MyMemory attempt is rejected exactly when its output is
case-insensitively identical to the input (causing overall failure, MyMemory
being last), while the three earlier providers return case-insensitively
identical outputs unrejected. -/
theorem mymemory_case_rejection (env : Env) (text fro toLang s : String)
    (hg : googleKeyActive env.googleApiKey = false ∨ env.googleResult = none)
    (hm : env.microsoftResult = none)
    (hl : env.lingvaResult = none ∨ env.lingvaResult = some "")
    (hmem : env.mymemoryResult = some s) (hs : s ≠ "") :
    ((lowerStr s = lowerStr text →
        (translateText env text fro toLang).1 = Except.error allFailedMsg) ∧
     (lowerStr s ≠ lowerStr text →
        (translateText env text fro toLang).1 = Except.ok s)) ∧
    (∀ (e : Env) (t f g u : String), googleKeyActive e.googleApiKey = true →
      e.googleResult = some u → lowerStr u = lowerStr t →
      (translateText e t f g).1 = Except.ok u) ∧
    (∀ (e : Env) (t f g u : String),
      (googleKeyActive e.googleApiKey = false ∨ e.googleResult = none) →
      e.microsoftResult = some u → lowerStr u = lowerStr t →
      (translateText e t f g).1 = Except.ok u) ∧
    (∀ (e : Env) (t f g u : String),
      (googleKeyActive e.googleApiKey = false ∨ e.googleResult = none) →
      e.microsoftResult = none → e.lingvaResult = some u → u ≠ "" →
      lowerStr u = lowerStr t →
      (translateText e t f g).1 = Except.ok u) := by
  refine ⟨⟨?_, ?_⟩, ?_, ?_, ?_⟩
  · intro heq
    rw [translateText_google_fail env text fro toLang hg,
        microsoftStep_fail env text fro toLang hm,
        lingvaStep_fail env text fro toLang hl,
        mymemoryStep_fail env text fro toLang
          (fun u hu => by rw [hmem] at hu; cases hu; exact Or.inr heq)]
  · intro hne
    rw [translateText_google_fail env text fro toLang hg,
        microsoftStep_fail env text fro toLang hm,
        lingvaStep_fail env text fro toLang hl,
        mymemoryStep_ok env text fro toLang s hmem hs hne]
  · intro e t f g u hk hgr _
    simp [translateText, hk, hgr]
  · intro e t f g u hgf hms _
    rw [translateText_google_fail e t f g hgf]
    simp [microsoftStep, hms]
  · intro e t f g u hgf hms hlv hu _
    rw [translateText_google_fail e t f g hgf, microsoftStep_fail e t f g hms]
    simp [lingvaStep, hlv, jsTruthy, hu]

/-- C3 witness: MyMemory echoing `hello` for input `Hello` is rejected and the
chain fails. -/
theorem mymemory_case_rejection_witness :
    envMymemoryEcho.mymemoryResult = some "hello" ∧
    lowerStr "hello" = lowerStr "Hello" ∧
    (translateText envMymemoryEcho "Hello" "auto" "es").1 = Except.error allFailedMsg := by
  refine ⟨rfl, by decide, ?_⟩
  exact (mymemory_case_rejection envMymemoryEcho "Hello" "auto" "es" "hello"
    (Or.inl rfl) rfl (Or.inl rfl) rfl (by decide)).1.1 (by decide)

/-- C4 counterexample: with no Azure credential configured (and Google
unconfigured), the Microsoft attempt is still issued — carrying the literal
key `none` — and its answer is returned, instead of the chain skipping
directly to the unauthenticated provider (whose answer `Salut` differs). -/
theorem microsoft_no_credential_cex :
    envNoAzure.azureTranslatorKey = none ∧
    envNoAzure.lingvaResult = some "Salut" ∧
    translateText envNoAzure "Hello" "auto" "fr" =
      (Except.ok "Bonjour", [Attempt.microsoft "none"]) :=
  ⟨rfl, rfl, rfl⟩

/-- C4 (amended): whenever the primary provider is skipped or fails, the
secondary (Microsoft) attempt is issued regardless of whether its credential
is configured; an unconfigured credential is sent as the placeholder `none`. -/
theorem microsoft_always_attempted (env : Env) (text fro toLang : String)
    (h : googleKeyActive env.googleApiKey = false ∨ env.googleResult = none) :
    Attempt.microsoft (msKeyHeader env.azureTranslatorKey) ∈
      (translateText env text fro toLang).2 ∧
    (env.azureTranslatorKey = none → msKeyHeader env.azureTranslatorKey = "none") := by
  constructor
  · rw [translateText_google_fail env text fro toLang h]
    obtain ⟨rest, hr⟩ := microsoftStep_trace_head env text fro toLang
    rw [hr]
    exact List.mem_append_right _ (List.mem_cons_self _ _)
  · intro hz
    simp [msKeyHeader, hz]

/-- C4 witness: with nothing configured, the Microsoft attempt with key
`none` appears in the trace. -/
theorem microsoft_always_attempted_witness :
    googleKeyActive envAllFail.googleApiKey = false ∧
    Attempt.microsoft (msKeyHeader envAllFail.azureTranslatorKey) ∈
      (translateText envAllFail "Hello" "auto" "es").2 ∧
    msKeyHeader envAllFail.azureTranslatorKey = "none" := by
  have h := microsoft_always_attempted envAllFail "Hello" "auto" "es" (Or.inl rfl)
  exact ⟨rfl, h.1, h.2 rfl⟩

/-- C10: whenever the MyMemory attempt is issued for a resolver call whose
source language is `auto`, the langpair it carries is `en|` followed by the
target code. -/
theorem mymemory_langpair_auto (env : Env) (text toLang lp : String)
    (h : Attempt.mymemory lp ∈ (translateText env text "auto" toLang).2) :
    lp = "en|" ++ toLang := by
  have h1 := mymemory_mem_translate env text "auto" toLang lp h
  have h3 : ("en" : String) ++ "|" = "en|" := by decide
  rw [h1]
  unfold mymemoryLangPair
  have h4 : (if (("auto" : String) == "auto") = true then ("en" : String) else "auto") = "en" := by
    decide
  rw [h4, h3]

/-- C10 witness: with every provider failing, the MyMemory attempt for
`auto` → `es` carries the langpair `en|es`. -/
theorem mymemory_langpair_auto_witness :
    Attempt.mymemory "en|es" ∈ (translateText envAllFail "Hello" "auto" "es").2 ∧
    "en|es" = "en|" ++ "es" := by
  refine ⟨by decide, ?_⟩
  exact mymemory_langpair_auto envAllFail "Hello" "es" "en|es" (by decide)

set_option maxHeartbeats 1000000 in
/-- C7: the heuristic detector checks the Unicode ranges in the fixed
priority order CJK → zh, Hiragana/Katakana → ja, Hangul → ko, Cyrillic → ru,
Arabic → ar, Basic Latin letters → en, first match winning; an input with no
character of any listed range yields `en`; the result is always one of the
six codes (the function is total, so detection never fails). -/
theorem detectLanguageHeuristic_spec (text : String) :
    (hasChinese text = true → detectLanguageHeuristic text = "zh") ∧
    (hasChinese text = false → hasJapanese text = true →
      detectLanguageHeuristic text = "ja") ∧
    (hasChinese text = false → hasJapanese text = false → hasKorean text = true →
      detectLanguageHeuristic text = "ko") ∧
    (hasChinese text = false → hasJapanese text = false → hasKorean text = false →
      hasCyrillic text = true → detectLanguageHeuristic text = "ru") ∧
    (hasChinese text = false → hasJapanese text = false → hasKorean text = false →
      hasCyrillic text = false → hasArabic text = true →
      detectLanguageHeuristic text = "ar") ∧
    (hasChinese text = false → hasJapanese text = false → hasKorean text = false →
      hasCyrillic text = false → hasArabic text = false → hasLatin text = true →
      detectLanguageHeuristic text = "en") ∧
    ((∀ c ∈ text.data,
        ¬ ((0x4e00 ≤ c.toNat ∧ c.toNat ≤ 0x9fff) ∨
           ((0x3040 ≤ c.toNat ∧ c.toNat ≤ 0x309f) ∨
            (0x30a0 ≤ c.toNat ∧ c.toNat ≤ 0x30ff)) ∨
           (0xac00 ≤ c.toNat ∧ c.toNat ≤ 0xd7af) ∨
           (0x400 ≤ c.toNat ∧ c.toNat ≤ 0x4ff) ∨
           (0x600 ≤ c.toNat ∧ c.toNat ≤ 0x6ff) ∨
           ((0x41 ≤ c.toNat ∧ c.toNat ≤ 0x5a) ∨
            (0x61 ≤ c.toNat ∧ c.toNat ≤ 0x7a)))) →
      detectLanguageHeuristic text = "en") ∧
    (detectLanguageHeuristic text = "zh" ∨ detectLanguageHeuristic text = "ja" ∨
     detectLanguageHeuristic text = "ko" ∨ detectLanguageHeuristic text = "ru" ∨
     detectLanguageHeuristic text = "ar" ∨ detectLanguageHeuristic text = "en") := by
  refine ⟨?_, ?_, ?_, ?_, ?_, ?_, ?_, ?_⟩
  · intro h1
    simp [detectLanguageHeuristic, h1]
  · intro h1 h2
    simp [detectLanguageHeuristic, h1, h2]
  · intro h1 h2 h3
    simp [detectLanguageHeuristic, h1, h2, h3]
  · intro h1 h2 h3 h4
    simp [detectLanguageHeuristic, h1, h2, h3, h4]
  · intro h1 h2 h3 h4 h5
    simp [detectLanguageHeuristic, h1, h2, h3, h4, h5]
  · intro h1 h2 h3 h4 h5 h6
    simp [detectLanguageHeuristic, h1, h2, h3, h4, h5, h6]
  · intro hall
    have h1 : hasChinese text = false := by
      simp only [hasChinese, List.any_eq_false]
      intro c hc
      have h := hall c hc
      simp only [Bool.and_eq_true, decide_eq_true_eq]
      exact fun hx => h (Or.inl hx)
    have h2 : hasJapanese text = false := by
      simp only [hasJapanese, List.any_eq_false]
      intro c hc
      have h := hall c hc
      simp only [Bool.or_eq_true, Bool.and_eq_true, decide_eq_true_eq]
      exact fun hx => h (Or.inr (Or.inl hx))
    have h3 : hasKorean text = false := by
      simp only [hasKorean, List.any_eq_false]
      intro c hc
      have h := hall c hc
      simp only [Bool.and_eq_true, decide_eq_true_eq]
      exact fun hx => h (Or.inr (Or.inr (Or.inl hx)))
    have h4 : hasCyrillic text = false := by
      simp only [hasCyrillic, List.any_eq_false]
      intro c hc
      have h := hall c hc
      simp only [Bool.and_eq_true, decide_eq_true_eq]
      exact fun hx => h (Or.inr (Or.inr (Or.inr (Or.inl hx))))
    have h5 : hasArabic text = false := by
      simp only [hasArabic, List.any_eq_false]
      intro c hc
      have h := hall c hc
      simp only [Bool.and_eq_true, decide_eq_true_eq]
      exact fun hx => h (Or.inr (Or.inr (Or.inr (Or.inr (Or.inl hx)))))
    have h6 : hasLatin text = false := by
      simp only [hasLatin, List.any_eq_false]
      intro c hc
      have h := hall c hc
      simp only [Bool.or_eq_true, Bool.and_eq_true, decide_eq_true_eq]
      exact fun hx => h (Or.inr (Or.inr (Or.inr (Or.inr (Or.inr hx)))))
    simp [detectLanguageHeuristic, h1, h2, h3, h4, h5, h6]
  · unfold detectLanguageHeuristic
    by_cases h1 : hasChinese text
    · simp [h1]
    · by_cases h2 : hasJapanese text
      · simp [h1, h2]
      · by_cases h3 : hasKorean text
        · simp [h1, h2, h3]
        · by_cases h4 : hasCyrillic text
          · simp [h1, h2, h3, h4]
          · by_cases h5 : hasArabic text
            · simp [h1, h2, h3, h4, h5]
            · by_cases h6 : hasLatin text
              · simp [h1, h2, h3, h4, h5, h6]
              · simp [h1, h2, h3, h4, h5, h6]

/-- C7 witness: symbol-only input `123 !` has no character of any listed
range and is detected as `en`. -/
theorem detectLanguageHeuristic_spec_witness :
    (∀ c ∈ ("123 !" : String).data,
        ¬ ((0x4e00 ≤ c.toNat ∧ c.toNat ≤ 0x9fff) ∨
           ((0x3040 ≤ c.toNat ∧ c.toNat ≤ 0x309f) ∨
            (0x30a0 ≤ c.toNat ∧ c.toNat ≤ 0x30ff)) ∨
           (0xac00 ≤ c.toNat ∧ c.toNat ≤ 0xd7af) ∨
           (0x400 ≤ c.toNat ∧ c.toNat ≤ 0x4ff) ∨
           (0x600 ≤ c.toNat ∧ c.toNat ≤ 0x6ff) ∨
           ((0x41 ≤ c.toNat ∧ c.toNat ≤ 0x5a) ∨
            (0x61 ≤ c.toNat ∧ c.toNat ≤ 0x7a)))) ∧
    detectLanguageHeuristic "123 !" = "en" := by
  refine ⟨by decide, ?_⟩
  exact (detectLanguageHeuristic_spec "123 !").2.2.2.2.2.2.1 (by decide)

/-- C8: on resolver success the handler persists a record carrying the source
text, the translated text and the resolved language codes (next id, current
timestamp, appended to the store) and responds with the translated text plus
those codes; an omitted source language resolves to `auto`. -/
theorem postTranslate_success_spec
    (env : Env) (store : MemStorage) (now : Nat) (text toLang s : String)
    (fro? : Option String) (ht : text ≠ "") (hto : toLang ≠ "")
    (hs : (translateText env text (orAuto fro?) toLang).1 = Except.ok s) :
    postTranslate env store now { text := some text, fro := fro?, toLang := some toLang } =
      (HandlerResponse.ok s (orAuto fro?) toLang,
       { translations := store.translations ++
           [{ id := store.currentTranslationId
              sourceText := text
              translatedText := s
              sourceLanguage := orAuto fro?
              targetLanguage := toLang
              createdAt := now }]
         currentTranslationId := store.currentTranslationId + 1 },
       (translateText env text (orAuto fro?) toLang).2) ∧
    (fro? = none → orAuto fro? = "auto") := by
  constructor
  · simp only [postTranslate]
    rw [if_neg (by simp [ht, hto])]
    rw [hs]
    rfl
  · intro hnone
    rw [hnone]
    rfl

/-- C8 witness: the spec's end-to-end example — only Lingva answers, with
`Hola`; `POST {text: Hello, to: es}` responds `Hola`/`auto`/`es` and appends
the matching record. -/
theorem postTranslate_success_spec_witness :
    (translateText envLingvaHola "Hello" (orAuto none) "es").1 = Except.ok "Hola" ∧
    postTranslate envLingvaHola MemStorage.empty 7
        { text := some "Hello", fro := none, toLang := some "es" } =
      (HandlerResponse.ok "Hola" (orAuto none) "es",
       { translations := MemStorage.empty.translations ++
           [{ id := MemStorage.empty.currentTranslationId
              sourceText := "Hello"
              translatedText := "Hola"
              sourceLanguage := orAuto none
              targetLanguage := "es"
              createdAt := 7 }]
         currentTranslationId := MemStorage.empty.currentTranslationId + 1 },
       (translateText envLingvaHola "Hello" (orAuto none) "es").2) ∧
    orAuto none = "auto" := by
  have h := postTranslate_success_spec envLingvaHola MemStorage.empty 7 "Hello" "es" "Hola"
    none (by decide) (by decide) rfl
  exact ⟨rfl, h.1, h.2 rfl⟩

/-- C9: a request whose text is missing or empty, or whose target language is
missing, is answered with the 400 `Missing required fields` response, with no
provider attempt issued and the store unchanged. -/
theorem postTranslate_missing_fields
    (env : Env) (store : MemStorage) (now : Nat) (req : TranslateRequest)
    (h : req.text = none ∨ req.text = some "" ∨ req.toLang = none) :
    postTranslate env store now req =
      (HandlerResponse.badRequest "Missing required fields", store, []) ∧
    HandlerResponse.status (HandlerResponse.badRequest "Missing required fields") = 400 := by
  refine ⟨?_, rfl⟩
  obtain ⟨tt, ff, gg⟩ := req
  rcases h with h | h | h
  · cases h
    cases gg <;> rfl
  · cases h
    cases gg <;> rfl
  · cases h
    cases tt <;> rfl

/-- C9 witness: a request with no text at all is rejected with 400 and an
untouched store. -/
theorem postTranslate_missing_fields_witness :
    (({ text := none, fro := none, toLang := some "es" } : TranslateRequest).text = none) ∧
    postTranslate envLingvaHola MemStorage.empty 7
        { text := none, fro := none, toLang := some "es" } =
      (HandlerResponse.badRequest "Missing required fields", MemStorage.empty, []) :=
  ⟨rfl,
   (postTranslate_missing_fields envLingvaHola MemStorage.empty 7
     { text := none, fro := none, toLang := some "es" } (Or.inl rfl)).1⟩

/-! Lemmas about the stable sort backing `getRecentTranslations`. -/

theorem mem_insertByCreatedAtDesc (x z : Translation) (l : List Translation) :
    z ∈ insertByCreatedAtDesc x l ↔ z = x ∨ z ∈ l := by
  induction l with
  | nil => simp [insertByCreatedAtDesc]
  | cons y ys ih =>
    unfold insertByCreatedAtDesc
    split
    · simp only [List.mem_cons, ih]
      tauto
    · simp only [List.mem_cons]

theorem length_insertByCreatedAtDesc (x : Translation) (l : List Translation) :
    (insertByCreatedAtDesc x l).length = l.length + 1 := by
  induction l with
  | nil => rfl
  | cons y ys ih =>
    unfold insertByCreatedAtDesc
    split
    · simp [ih]
    · simp

theorem pairwise_insertByCreatedAtDesc (x : Translation) (l : List Translation)
    (hl : l.Pairwise tieR) (hid : ∀ y ∈ l, y.id < x.id) :
    (insertByCreatedAtDesc x l).Pairwise tieR := by
  induction l with
  | nil => simp [insertByCreatedAtDesc]
  | cons y ys ih =>
    rcases List.pairwise_cons.mp hl with ⟨hy, hys⟩
    unfold insertByCreatedAtDesc
    by_cases hle : x.createdAt ≤ y.createdAt
    · rw [if_pos hle]
      refine List.pairwise_cons.mpr ⟨?_, ih hys ?_⟩
      · intro z hz
        rcases (mem_insertByCreatedAtDesc x z ys).mp hz with rfl | hz
        · rcases Nat.lt_or_ge z.createdAt y.createdAt with hlt | hge
          · exact Or.inl hlt
          · have heq : z.createdAt = y.createdAt := Nat.le_antisymm hle hge
            exact Or.inr ⟨heq.symm, hid y (List.mem_cons_self y ys)⟩
        · exact hy z hz
      · intro z hz
        exact hid z (List.mem_cons_of_mem y hz)
    · rw [if_neg hle]
      have hgt : y.createdAt < x.createdAt := Nat.not_le.mp hle
      refine List.pairwise_cons.mpr ⟨?_, hl⟩
      intro z hz
      rcases List.mem_cons.mp hz with rfl | hz
      · exact Or.inl hgt
      · have hzy : z.createdAt ≤ y.createdAt := by
          rcases hy z hz with hlt | ⟨heq, _⟩
          · exact Nat.le_of_lt hlt
          · exact Nat.le_of_eq heq.symm
        exact Or.inl (Nat.lt_of_le_of_lt hzy hgt)

theorem sortFold_spec (l : List Translation) :
    ∀ acc : List Translation, acc.Pairwise tieR →
    l.Pairwise (fun a b => a.id < b.id) →
    (∀ y ∈ acc, ∀ x ∈ l, y.id < x.id) →
    (l.foldl (fun a x => insertByCreatedAtDesc x a) acc).Pairwise tieR ∧
    (l.foldl (fun a x => insertByCreatedAtDesc x a) acc).length = acc.length + l.length ∧
    (∀ z, z ∈ l.foldl (fun a x => insertByCreatedAtDesc x a) acc ↔ z ∈ acc ∨ z ∈ l) := by
  induction l with
  | nil =>
    intro acc hacc _ _
    refine ⟨hacc, rfl, fun z => ?_⟩
    simp
  | cons x xs ih =>
    intro acc hacc hl hcross
    rw [List.foldl_cons]
    rcases List.pairwise_cons.mp hl with ⟨hx, hxs⟩
    have hacc' : (insertByCreatedAtDesc x acc).Pairwise tieR :=
      pairwise_insertByCreatedAtDesc x acc hacc
        (fun y hy => hcross y hy x (List.mem_cons_self x xs))
    have hcross' : ∀ y ∈ insertByCreatedAtDesc x acc, ∀ z ∈ xs, y.id < z.id := by
      intro y hy z hz
      rcases (mem_insertByCreatedAtDesc x y acc).mp hy with rfl | hy
      · exact hx z hz
      · exact hcross y hy z (List.mem_cons_of_mem x hz)
    obtain ⟨p1, p2, p3⟩ := ih (insertByCreatedAtDesc x acc) hacc' hxs hcross'
    refine ⟨p1, ?_, ?_⟩
    · rw [p2, length_insertByCreatedAtDesc, List.length_cons]
      omega
    · intro z
      rw [p3 z, mem_insertByCreatedAtDesc]
      simp only [List.mem_cons]
      tauto

theorem sortByCreatedAtDesc_spec (l : List Translation)
    (hl : l.Pairwise fun a b => a.id < b.id) :
    (sortByCreatedAtDesc l).Pairwise tieR ∧
    (sortByCreatedAtDesc l).length = l.length ∧
    (∀ z, z ∈ sortByCreatedAtDesc l ↔ z ∈ l) := by
  obtain ⟨p1, p2, p3⟩ := sortFold_spec l [] List.Pairwise.nil hl (by simp)
  refine ⟨p1, ?_, fun z => ?_⟩
  · simpa using p2
  · simpa using p3 z

/-- C5 counterexample: two records created with the same `createdAt`; the
stable comparator sort keeps them in insertion order, so `recent` lists id 1
before id 2 — ascending id on the tie, not the claimed descending id. -/
theorem getRecentTranslations_tie_cex :
    (twoTiedStore.translations.map fun t => t.createdAt) = [5, 5] ∧
    ((getRecentTranslations twoTiedStore 10).map fun t => t.id) = [1, 2] := by
  exact ⟨rfl, rfl⟩

/-- C5 (amended): for a store whose records carry strictly increasing ids (as
every store built by `createTranslation` does), `recent(k)` returns at most
`k` stored records ordered by `createdAt` descending with ties broken by
ascending id (insertion order), fewer than `k` when fewer exist, and none
when the store is empty. -/
theorem getRecentTranslations_spec (s : MemStorage) (k : Nat)
    (hids : s.translations.Pairwise fun a b => a.id < b.id) :
    (getRecentTranslations s k).length = min k s.translations.length ∧
    (getRecentTranslations s k).Pairwise tieR ∧
    (∀ t ∈ getRecentTranslations s k, t ∈ s.translations) ∧
    (s.translations = [] → getRecentTranslations s k = []) := by
  obtain ⟨p1, p2, p3⟩ := sortByCreatedAtDesc_spec s.translations hids
  refine ⟨?_, ?_, ?_, ?_⟩
  · unfold getRecentTranslations
    rw [List.length_take, p2]
  · exact p1.sublist (List.take_sublist _ _)
  · intro t ht
    exact (p3 t).mp (List.take_subset _ _ ht)
  · intro hemp
    unfold getRecentTranslations
    rw [hemp]
    simp [sortByCreatedAtDesc]

/-- C5 witness: the two-record tied store satisfies the id hypothesis and the
amended recency contract at limit 10. -/
theorem getRecentTranslations_spec_witness :
    (twoTiedStore.translations.Pairwise fun a b => a.id < b.id) ∧
    ((getRecentTranslations twoTiedStore 10).length =
        min 10 twoTiedStore.translations.length ∧
      (getRecentTranslations twoTiedStore 10).Pairwise tieR ∧
      (∀ t ∈ getRecentTranslations twoTiedStore 10, t ∈ twoTiedStore.translations) ∧
      (twoTiedStore.translations = [] → getRecentTranslations twoTiedStore 10 = [])) := by
  refine ⟨by decide, ?_⟩
  exact getRecentTranslations_spec twoTiedStore 10 (by decide)

theorem createMany_ids (items : List (InsertTranslation × Nat)) :
    ∀ s : MemStorage,
      ((createMany s items).translations.map fun t => t.id) =
        (s.translations.map fun t => t.id) ++
          List.range' s.currentTranslationId items.length ∧
      (createMany s items).currentTranslationId =
        s.currentTranslationId + items.length := by
  induction items with
  | nil =>
    intro s
    simp [createMany]
  | cons p ps ih =>
    intro s
    have hstep : createMany s (p :: ps) = createMany (createTranslation s p.1 p.2).2 ps := rfl
    rw [hstep]
    obtain ⟨h1, h2⟩ := ih (createTranslation s p.1 p.2).2
    constructor
    · rw [h1]
      simp [createTranslation, List.range'_succ]
    · rw [h2]
      simp [createTranslation]
      omega

/-- C6: `N` calls to `createTranslation` on a fresh store assign exactly the
ids `1..N` in order (hence all ids are distinct); each call succeeds
unconditionally, copies the caller's fields, stamps the supplied time, and
only appends — the records already stored are left untouched. -/
theorem createTranslation_spec (items : List (InsertTranslation × Nat)) :
    ((createMany MemStorage.empty items).translations.map fun t => t.id) =
      List.range' 1 items.length ∧
    ((createMany MemStorage.empty items).translations.map fun t => t.id).Nodup ∧
    (∀ (s : MemStorage) (ins : InsertTranslation) (now : Nat),
      (createTranslation s ins now).2.translations =
        s.translations ++ [(createTranslation s ins now).1] ∧
      (createTranslation s ins now).1.id = s.currentTranslationId ∧
      (createTranslation s ins now).1.sourceText = ins.sourceText ∧
      (createTranslation s ins now).1.translatedText = ins.translatedText ∧
      (createTranslation s ins now).1.sourceLanguage = ins.sourceLanguage ∧
      (createTranslation s ins now).1.targetLanguage = ins.targetLanguage ∧
      (createTranslation s ins now).1.createdAt = now ∧
      (createTranslation s ins now).2.currentTranslationId = s.currentTranslationId + 1) := by
  obtain ⟨h1, _⟩ := createMany_ids items MemStorage.empty
  have hmap : ((createMany MemStorage.empty items).translations.map fun t => t.id) =
      List.range' 1 items.length := by
    simpa [MemStorage.empty] using h1
  refine ⟨hmap, ?_, ?_⟩
  · rw [hmap]
    exact List.nodup_range' ..
  · intro s ins now
    exact ⟨rfl, rfl, rfl, rfl, rfl, rfl, rfl, rfl⟩

end MLT
